import Mathlib

/-!
Shallow embedding of the rule-processing core of the HappyFox backend task
repository (`src/process_rules.py`), together with proofs of the behavioural
claims about it.

Modelling conventions:
* Python strings are Lean `String`s; `str.lower()` / `str.upper()` are
  `pyLower` / `pyUpper` (`Char.toLower` / `Char.toUpper` on each character).
* Python `datetime` values are `Int` timestamps counted in seconds;
  `timedelta(days=d)` is `timedeltaDays d = d * 86400` seconds.
* Nullable database columns are `Option` fields; Python `None` is `none`.
* Dynamically typed rule values are `PyVal` (string or int); dynamically typed
  field values flowing into the predicate functions are `FieldV`.
* Code that can raise returns `Except PyErr`; `PyErr` records the Python
  exception class and message.
* `datetime.now()` is modelled by an ambient clock `clock : Nat → Int`
  together with a tick counter: the n-th call of `datetime.now()` during the
  run returns `clock n`.  Functions that may sample the clock thread the tick.
* The Gmail service is modelled by a `World` carrying the provider label list
  and the trace of issued API calls; a call raises iff the environment
  parameter `fails` says so, and label creation assigns ids via the
  environment parameter `nid`.
-/

instance {ε : Type u} {α : Type v} [DecidableEq ε] [DecidableEq α] :
    DecidableEq (Except ε α) := fun a b =>
  match a, b with
  | .ok x, .ok y =>
    if h : x = y then .isTrue (by rw [h]) else .isFalse (fun c => h (Except.ok.inj c))
  | .error x, .error y =>
    if h : x = y then .isTrue (by rw [h]) else .isFalse (fun c => h (Except.error.inj c))
  | .ok _, .error _ => .isFalse (fun c => Except.noConfusion c)
  | .error _, .ok _ => .isFalse (fun c => Except.noConfusion c)

/-- `str.lower()` (per-character lowering). -/
def pyLower (s : String) : String := String.mk (s.toList.map Char.toLower)

/-- `str.upper()` (per-character uppering). -/
def pyUpper (s : String) : String := String.mk (s.toList.map Char.toUpper)

/-- Does `needle` occur at the head of `hay`? (helper for Python `in`). -/
def headMatch : List Char → List Char → Bool
  | [], _ => true
  | _ :: _, [] => false
  | a :: as, b :: bs => a == b && headMatch as bs

/-- Does `needle` occur anywhere in `hay`? (helper for Python `in`). -/
def occursIn : List Char → List Char → Bool
  | needle, [] => needle.isEmpty
  | needle, c :: rest => headMatch needle (c :: rest) || occursIn needle rest

/-- Python `needle in hay` on strings: substring test. -/
def containsSub (hay needle : String) : Bool := occursIn needle.toList hay.toList

/-- `timedelta(days = d)`, in seconds. -/
def timedeltaDays (d : Int) : Int := d * 86400

/-- A dynamically typed rule comparison value (`rule['value']` from JSON). -/
inductive PyVal where
  | str (s : String)
  | int (n : Int)
  deriving Repr, DecidableEq

/-- A raised Python exception: class and message. -/
inductive PyErr where
  | valueError (msg : String)
  | typeError (msg : String)
  | attributeError (msg : String)
  | httpError (msg : String)
  deriving Repr, DecidableEq

/-- A dynamically typed record field value as passed to a predicate function:
either a nullable text column or a nullable datetime column. -/
inductive FieldV where
  | strV (v : Option String)
  | dateV (v : Option Int)
  deriving Repr, DecidableEq

/-- `rule_val.lower()`: succeeds on a string, raises `AttributeError` on an int. -/
def pyLowerVal : PyVal → Except PyErr String
  | .str s => .ok (pyLower s)
  | .int _ => .error (.attributeError "int object has no attribute lower")

/-- `(field_val or \x27\x27).lower()`: `None` (and a date `None`) collapse to the
empty string; a non-null datetime has no `.lower` and raises `AttributeError`. -/
def fieldTextLower : FieldV → Except PyErr String
  | .strV none => .ok ""
  | .strV (some s) => .ok (pyLower s)
  | .dateV none => .ok ""
  | .dateV (some _) => .error (.attributeError "datetime object has no attribute lower")

/-- `int(rule_val)`: identity on ints, decimal parse on strings. -/
def pyIntOf : PyVal → Except PyErr Int
  | .int n => .ok n
  | .str s =>
    match s.toInt? with
    | some n => .ok n
    | none => .error (.valueError ("invalid literal for int: " ++ s))

/-- `predicate_contains(field_val, rule_val)`:
`rule_val.lower() in (field_val or ...).lower()`
(left operand evaluated first, as in Python). -/
def predicate_contains (field_val : FieldV) (rule_val : PyVal) : Except PyErr Bool := do
  let needle ← pyLowerVal rule_val
  let hay ← fieldTextLower field_val
  pure (containsSub hay needle)

/-- `predicate_not_contains(field_val, rule_val)`:
`rule_val.lower() not in (field_val or ...).lower()`. -/
def predicate_not_contains (field_val : FieldV) (rule_val : PyVal) : Except PyErr Bool := do
  let needle ← pyLowerVal rule_val
  let hay ← fieldTextLower field_val
  pure (!(containsSub hay needle))

/-- `predicate_equals(field_val, rule_val)`:
`(field_val or ...).lower() == rule_val.lower()`. -/
def predicate_equals (field_val : FieldV) (rule_val : PyVal) : Except PyErr Bool := do
  let hay ← fieldTextLower field_val
  let needle ← pyLowerVal rule_val
  pure (hay == needle)

/-- `predicate_not_equals(field_val, rule_val)`:
`(field_val or ...).lower() != rule_val.lower()`. -/
def predicate_not_equals (field_val : FieldV) (rule_val : PyVal) : Except PyErr Bool := do
  let hay ← fieldTextLower field_val
  let needle ← pyLowerVal rule_val
  pure (!(hay == needle))

/-- `predicate_less_than_date(dt, rule_val, unit, now)`:
`days = int(rule_val) * (30 if unit == months else 1)`,
`cutoff = now - timedelta(days=days)`, `return dt > cutoff`.
The comparison raises `TypeError` unless `dt` is a non-null datetime.
The `now` argument is the sampled or injected reference time (the source
defaults it to `datetime.now()`, sampled at the call site of the model). -/
def predicate_less_than_date (dt : FieldV) (rule_val : PyVal) (unit : String)
    (now : Int) : Except PyErr Bool := do
  let n ← pyIntOf rule_val
  let days := n * (if unit == "months" then 30 else 1)
  let cutoff := now - timedeltaDays days
  match dt with
  | .dateV (some d) => pure (decide (d > cutoff))
  | _ => Except.error (.typeError "ordering comparison is not supported between these types")

/-- `predicate_greater_than_date(dt, rule_val, unit, now)`: as above with
`return dt < cutoff`. -/
def predicate_greater_than_date (dt : FieldV) (rule_val : PyVal) (unit : String)
    (now : Int) : Except PyErr Bool := do
  let n ← pyIntOf rule_val
  let days := n * (if unit == "months" then 30 else 1)
  let cutoff := now - timedeltaDays days
  match dt with
  | .dateV (some d) => pure (decide (d < cutoff))
  | _ => Except.error (.typeError "ordering comparison is not supported between these types")

/-- A row of the `emails` table (all data columns are nullable in SQLAlchemy
except the primary key). -/
structure Email where
  id : String
  thread_id : String
  from_address : Option String
  to_address : Option String
  subject : Option String
  snippet : Option String
  received_at : Option Int
  processed_at : Option Int
  deriving Repr, DecidableEq

/-- One rule condition object from the JSON rules file. -/
structure Rule where
  field : String
  predicate : String
  value : PyVal
  unit : Option String
  deriving Repr, DecidableEq

/-- The field-selection `if` chain of `evaluate_rule` (case-insensitive field
already lowered by the caller). -/
def selectTarget (email : Email) (field : String) : Except PyErr FieldV :=
  if field == "from" then .ok (.strV email.from_address)
  else if field == "to" then .ok (.strV email.to_address)
  else if field == "subject" then .ok (.strV email.subject)
  else if field == "message" || field == "snippet" then .ok (.strV email.snippet)
  else if field == "date" || field == "received" || field == "received_at" then
    .ok (.dateV email.received_at)
  else .error (.valueError ("Unsupported field in rule: " ++ field))

/-- Membership of the lowered predicate token in the `PREDICATE_FN` table. -/
def predKnown (pred : String) : Bool :=
  pred == "contains" || pred == "does not contain" || pred == "equals" ||
  pred == "does not equal" || pred == "less than" || pred == "greater than"

/-- `evaluate_rule(email, rule)`.  Returns the outcome together with the tick
counter after the call (date predicate calls sample `datetime.now()` once,
because `evaluate_rule` never passes a `now` argument). -/
def evaluate_rule (email : Email) (rule : Rule) (clock : Nat → Int) (tick : Nat) :
    Except PyErr Bool × Nat :=
  let field := pyLower rule.field
  let pred := pyLower rule.predicate
  let unit := rule.unit.getD "days"
  match selectTarget email field with
  | .error e => (.error e, tick)
  | .ok target =>
    if predKnown pred = false then
      (.error (.valueError ("Unsupported predicate: " ++ pred)), tick)
    else if containsSub field "date" || pred == "less than" || pred == "greater than" then
      -- three-argument call `fn(target, val, unit)`
      if pred == "less than" then
        (predicate_less_than_date target rule.value unit (clock tick), tick + 1)
      else if pred == "greater than" then
        (predicate_greater_than_date target rule.value unit (clock tick), tick + 1)
      else
        -- a two-argument string predicate invoked with three arguments
        (.error (.typeError "predicate function takes 2 positional arguments but 3 were given"),
         tick)
    else
      -- two-argument call `fn(target, val)`; only string predicates reach here
      if pred == "contains" then (predicate_contains target rule.value, tick)
      else if pred == "does not contain" then (predicate_not_contains target rule.value, tick)
      else if pred == "equals" then (predicate_equals target rule.value, tick)
      else (predicate_not_equals target rule.value, tick)

/-- The comprehension `[evaluate_rule(email, r) for r in rules]`: evaluates the
conditions in order, propagating the first raised exception. -/
def evalRules (email : Email) (clock : Nat → Int) :
    List Rule → Nat → Except PyErr (List Bool) × Nat
  | [], tick => (.ok [], tick)
  | r :: rest, tick =>
    match evaluate_rule email r clock tick with
    | (.error e, t) => (.error e, t)
    | (.ok b, t) =>
      match evalRules email clock rest t with
      | (.ok bs, t2) => (.ok (b :: bs), t2)
      | (.error e, t2) => (.error e, t2)

/-- `all(results) if overall == "all" else any(results)`. -/
def matcherDecision (overall : String) (results : List Bool) : Bool :=
  if overall == "all" then results.all (fun b => b) else results.any (fun b => b)

/-- `cfg.get("predicate", "All").lower()`. -/
def overallOf (p : Option String) : String := pyLower (p.getD "All")

/-- One Gmail API request, as recorded in the call trace. -/
inductive ApiCall where
  | modifyMsg (msgId : String) (addIds removeIds : List String)
  | labelsList
  | labelsCreate (name : String)
  deriving Repr, DecidableEq

/-- The remote side of the run: the provider label table (name, id) and the
ordered trace of API calls issued so far, plus the warnings printed by the
processing loop. -/
structure World where
  provLabels : List (String × String)
  calls : List ApiCall
  warns : List String
  deriving Repr, DecidableEq

/-- The process-local label cache: a Python dict from label name to label id. -/
def LabelCache := List (String × String)
deriving instance Repr, DecidableEq for LabelCache

/-- Dict lookup `d.get(k)`. -/
def cacheGet (c : LabelCache) (k : String) : Option String :=
  (c.find? (fun p => p.1 == k)).map (fun p => p.2)

/-- Dict assignment `d[k] = v` (replaces an existing binding, else appends). -/
def setKey : LabelCache → String → String → LabelCache
  | [], k, v => [(k, v)]
  | (k0, v0) :: rest, k, v =>
    if k0 == k then (k0, v) :: rest else (k0, v0) :: setKey rest k v

/-- Dict `d.update(entries)`: assign every entry in order. -/
def updCache (c : LabelCache) (entries : List (String × String)) : LabelCache :=
  entries.foldl (fun acc p => setKey acc p.1 p.2) c

/-- Python truthiness test `not label_id` on an optional string. -/
def pyFalsy : Option String → Bool
  | none => true
  | some s => s == ""

/-- `service.users().messages().modify(...).execute()`: records the call and
raises iff the environment says this call fails. -/
def modifyCall (fails : ApiCall → Bool) (w : World) (msgId : String)
    (addIds removeIds : List String) : World × Option PyErr :=
  let c := ApiCall.modifyMsg msgId addIds removeIds
  let w2 := { w with calls := w.calls ++ [c] }
  if fails c then (w2, some (.httpError "HttpError from messages.modify")) else (w2, none)

/-- `service.users().labels().list(...).execute().get("labels", [])`. -/
def labelsListCall (fails : ApiCall → Bool) (w : World) :
    World × Except PyErr (List (String × String)) :=
  let w2 := { w with calls := w.calls ++ [ApiCall.labelsList] }
  if fails .labelsList then (w2, .error (.httpError "HttpError from labels.list"))
  else (w2, .ok w2.provLabels)

/-- `service.users().labels().create(...).execute()`: the provider assigns the
id `nid name` and the new label becomes visible in later label lists. -/
def labelsCreateCall (fails : ApiCall → Bool) (nid : String → String) (w : World)
    (name : String) : World × Except PyErr String :=
  let w2 := { w with calls := w.calls ++ [ApiCall.labelsCreate name] }
  if fails (.labelsCreate name) then (w2, .error (.httpError "HttpError from labels.create"))
  else ({ w2 with provLabels := w2.provLabels ++ [(name, nid name)] }, .ok (nid name))

/-- `mark_as_read(service, msg_id)`: modify with `removeLabelIds = [UNREAD]`. -/
def mark_as_read (fails : ApiCall → Bool) (w : World) (msgId : String) :
    World × Option PyErr :=
  modifyCall fails w msgId [] ["UNREAD"]

/-- `mark_as_unread(service, msg_id)`: modify with `addLabelIds = [UNREAD]`. -/
def mark_as_unread (fails : ApiCall → Bool) (w : World) (msgId : String) :
    World × Option PyErr :=
  modifyCall fails w msgId ["UNREAD"] []

/-- `move_to_label(service, msg_id, label_name, label_cache)`.  Returns the new
world, the new cache, and the raised exception if any. -/
def move_to_label (fails : ApiCall → Bool) (nid : String → String) (w : World)
    (msg_id label_name : String) (label_cache : LabelCache) :
    World × LabelCache × Option PyErr :=
  if pyUpper label_name == "INBOX" then
    let r := modifyCall fails w msg_id ["INBOX"] []
    (r.1, label_cache, r.2)
  else
    -- `if label_name not in label_cache: fetch the label list and update`
    match (if (cacheGet label_cache label_name).isSome then
             ((w, Except.ok label_cache) : World × Except PyErr LabelCache)
           else
             match labelsListCall fails w with
             | (w2, .error e) => (w2, .error e)
             | (w2, .ok labs) => (w2, .ok (updCache label_cache labs))) with
    | (w1, .error e) => (w1, label_cache, some e)
    | (w1, .ok c1) =>
      -- `label_id = label_cache.get(label_name); if not label_id: create`
      match (if pyFalsy (cacheGet c1 label_name) then
               match labelsCreateCall fails nid w1 label_name with
               | (w2, .error e) => (w2, Except.error e)
               | (w2, .ok i) => (w2, Except.ok (setKey c1 label_name i, i))
             else
               ((w1, Except.ok (c1, (cacheGet c1 label_name).getD "")) :
                 World × Except PyErr (LabelCache × String))) with
      | (w2, .error e) => (w2, c1, some e)
      | (w2, .ok (c2, label_id)) =>
        -- add the custom label and remove INBOX
        let r := modifyCall fails w2 msg_id [label_id] ["INBOX"]
        (r.1, c2, r.2)

/-- The warning printed for an unsupported action token (quote characters
around the token are omitted from the model). -/
def warnMsg (a : String) : String := "Warning: Unsupported action " ++ a

/-- Does `s` start with the literal `move_to:`? (`action.startswith(...)`). -/
def startsMoveTo (s : String) : Bool := headMatch "move_to:".toList s.toList

/-- The per-record action loop of `process_rules`: apply each action token in
order, skipping unrecognized tokens with a warning and propagating the first
raised exception. -/
def dispatchActions (fails : ApiCall → Bool) (nid : String → String) (msgId : String) :
    List String → World → LabelCache → World × LabelCache × Option PyErr
  | [], w, cache => (w, cache, none)
  | a :: rest, w, cache =>
    if a == "mark_as_read" then
      match mark_as_read fails w msgId with
      | (w2, some e) => (w2, cache, some e)
      | (w2, none) => dispatchActions fails nid msgId rest w2 cache
    else if a == "mark_as_unread" then
      match mark_as_unread fails w msgId with
      | (w2, some e) => (w2, cache, some e)
      | (w2, none) => dispatchActions fails nid msgId rest w2 cache
    else if startsMoveTo a then
      -- `_, label = action.split(":", 1)`
      let label := String.mk (a.toList.drop 8)
      match move_to_label fails nid w msgId label cache with
      | (w2, c2, some e) => (w2, c2, some e)
      | (w2, c2, none) => dispatchActions fails nid msgId rest w2 c2
    else
      dispatchActions fails nid msgId rest
        { w with warns := w.warns ++ [warnMsg a] } cache

/-- The parsed rules JSON file: top-level `predicate` (optional), `rules`,
`actions`. -/
structure Config where
  predicate : Option String
  rules : List Rule
  actions : List String
  deriving Repr, DecidableEq

/-- The mutable state of one processing run: the database table, the remote
world, the label cache and the wall-clock tick counter. -/
structure RunState where
  db : List Email
  w : World
  cache : LabelCache
  tick : Nat
  deriving Repr, DecidableEq

/-- `session.query(Email).filter(Email.processed_at.is_(None)).all()`. -/
def fetchUnprocessed (db : List Email) : List Email :=
  db.filter (fun e => e.processed_at.isNone)

/-- `UPDATE emails SET processed_at = t WHERE id = i` followed by commit. -/
def markProcessed (db : List Email) (i : String) (t : Int) : List Email :=
  db.map (fun e => if e.id == i then { e with processed_at := some t } else e)

/-- Row lookup by primary key (first row with the given id). -/
def findRec (db : List Email) (i : String) : Option Email :=
  db.find? (fun e => e.id == i)

/-- The record loop of `process_rules` over the fetched snapshot.  Returns the
final state and the exception that aborted the run, if any. -/
def runLoop (rules : List Rule) (overall : String) (actions : List String)
    (clock : Nat → Int) (fails : ApiCall → Bool) (nid : String → String) :
    List Email → RunState → RunState × Option PyErr
  | [], st => (st, none)
  | e :: rest, st =>
    match evalRules e clock rules st.tick with
    | (.error err, t) => ({ st with tick := t }, some err)
    | (.ok results, t) =>
      if matcherDecision overall results then
        match dispatchActions fails nid e.id actions st.w st.cache with
        | (w2, c2, some err) => ({ st with w := w2, cache := c2, tick := t }, some err)
        | (w2, c2, none) =>
          runLoop rules overall actions clock fails nid rest
            { db := markProcessed st.db e.id (clock t), w := w2, cache := c2, tick := t + 1 }
      else
        runLoop rules overall actions clock fails nid rest { st with tick := t }

/-- `process_rules(rules_path)` after the config has been loaded: derive the
aggregation policy, create an empty label cache, fetch the unprocessed rows
once, and run the record loop. -/
def process_rules (cfg : Config) (db : List Email) (w : World) (clock : Nat → Int)
    (fails : ApiCall → Bool) (nid : String → String) (tick : Nat) :
    RunState × Option PyErr :=
  runLoop cfg.rules (overallOf cfg.predicate) cfg.actions clock fails nid
    (fetchUnprocessed db) ⟨db, w, [], tick⟩

/-! ## Helper lemmas -/

theorem evalRules_ok_length :
    ∀ (rules : List Rule) (email : Email) (clock : Nat → Int) (tick : Nat)
      (results : List Bool) (t2 : Nat),
      evalRules email clock rules tick = (.ok results, t2) → results.length = rules.length := by
  intro rules
  induction rules with
  | nil =>
    intro email clock tick results t2 h
    simp only [evalRules] at h
    cases h
    rfl
  | cons r rest ih =>
    intro email clock tick results t2 h
    simp only [evalRules] at h
    cases h1 : evaluate_rule email r clock tick with
    | mk exb t =>
      rw [h1] at h
      cases exb with
      | error e => simp at h
      | ok b =>
        simp only at h
        cases h2 : evalRules email clock rest t with
        | mk exbs t3 =>
          rw [h2] at h
          cases exbs with
          | error e => simp at h
          | ok bs =>
            simp only [Prod.mk.injEq, Except.ok.injEq] at h
            cases h.1
            simpa using ih email clock t bs t3 h2

theorem matcherDecision_all_iff (results : List Bool) :
    matcherDecision "all" results = true ↔ ∀ b ∈ results, b = true := by
  simp [matcherDecision, List.all_eq_true]

theorem matcherDecision_any_iff (results : List Bool) :
    matcherDecision "any" results = true ↔ ∃ b ∈ results, b = true := by
  simp [matcherDecision, List.any_eq_true]

theorem matcherDecision_congr (o1 o2 : String) (results : List Bool)
    (h : (o1 == "all") = (o2 == "all")) :
    matcherDecision o1 results = matcherDecision o2 results := by
  simp only [matcherDecision, h]

theorem runLoop_overall_congr (rules : List Rule) (o1 o2 : String)
    (actions : List String) (clock : Nat → Int) (fails : ApiCall → Bool)
    (nid : String → String) (h : (o1 == "all") = (o2 == "all")) :
    ∀ (es : List Email) (st : RunState),
      runLoop rules o1 actions clock fails nid es st =
      runLoop rules o2 actions clock fails nid es st := by
  intro es
  induction es with
  | nil => intro st; rfl
  | cons e rest ih =>
    intro st
    simp only [runLoop]
    cases hev : evalRules e clock rules st.tick with
    | mk exb t =>
      cases exb with
      | error err => rfl
      | ok results =>
        simp only
        rw [matcherDecision_congr o1 o2 results h]
        cases hm : matcherDecision o2 results with
        | false => simp only [Bool.false_eq_true, if_false]; exact ih _
        | true =>
          simp only [if_true]
          cases hd : dispatchActions fails nid e.id actions st.w st.cache with
          | mk w2 p =>
            obtain ⟨c2, perr⟩ := p
            cases perr with
            | some err => rfl
            | none => exact ih _

/-! ## Claim C1: the date-window predicates -/

/-- Claim C1: for every timestamp `t`, count `n` and reference time `now`,
`predicate_less_than_date` is true iff `t > now - d` days and
`predicate_greater_than_date` is true iff `t < now - d` days, where `d = n`
for unit `days` and `d = 30 * n` for unit `months`. -/
theorem date_window_predicates_c1 (t n now : Int) :
    (predicate_less_than_date (.dateV (some t)) (.int n) "days" now = .ok true ↔
      t > now - timedeltaDays n) ∧
    (predicate_less_than_date (.dateV (some t)) (.int n) "months" now = .ok true ↔
      t > now - timedeltaDays (30 * n)) ∧
    (predicate_greater_than_date (.dateV (some t)) (.int n) "days" now = .ok true ↔
      t < now - timedeltaDays n) ∧
    (predicate_greater_than_date (.dateV (some t)) (.int n) "months" now = .ok true ↔
      t < now - timedeltaDays (30 * n)) := by
  refine ⟨?_, ?_, ?_, ?_⟩ <;>
    simp [predicate_less_than_date, predicate_greater_than_date, pyIntOf, timedeltaDays,
      Bind.bind, Except.bind, pure, Except.pure] <;>
    constructor <;> intro h <;> omega

/-! ## Claim C2: conjunctive and disjunctive matching -/

/-- Claim C2: when every condition of the rule list evaluates without error,
the matcher with aggregation `all` is true iff every condition result is true
and with `any` iff at least one is; an empty condition list yields true under
`all` and false under `any`. -/
theorem matcher_all_any_c2 (email : Email) (rules : List Rule) (clock : Nat → Int)
    (tick : Nat) (results : List Bool) (t2 : Nat)
    (h : evalRules email clock rules tick = (.ok results, t2)) :
    results.length = rules.length ∧
    (matcherDecision "all" results = true ↔ ∀ b ∈ results, b = true) ∧
    (matcherDecision "any" results = true ↔ ∃ b ∈ results, b = true) ∧
    (rules = [] →
      results = [] ∧ matcherDecision "all" results = true ∧
        matcherDecision "any" results = false) := by
  refine ⟨evalRules_ok_length rules email clock tick results t2 h,
    matcherDecision_all_iff results, matcherDecision_any_iff results, ?_⟩
  intro hr
  subst hr
  simp only [evalRules, Prod.mk.injEq, Except.ok.injEq] at h
  cases h.1
  exact ⟨rfl, by decide, by decide⟩

/-- Witness for C2 at a concrete input: the empty rule list evaluates to an
empty result list, `all` matches and `any` does not. -/
theorem matcher_all_any_c2_witness :
    ([] : List Bool).length = ([] : List Rule).length ∧
    (matcherDecision "all" [] = true ↔ ∀ b ∈ ([] : List Bool), b = true) ∧
    (matcherDecision "any" [] = true ↔ ∃ b ∈ ([] : List Bool), b = true) ∧
    (([] : List Rule) = [] →
      ([] : List Bool) = [] ∧ matcherDecision "all" [] = true ∧
        matcherDecision "any" [] = false) :=
  matcher_all_any_c2 ⟨"e1", "t1", none, none, none, none, none, none⟩ []
    (fun _ => 0) 0 [] 0 rfl

/-! ## Claim C9: algebra of the string predicates -/

/-- Claim C9: `not_contains` is the pointwise negation of `contains`; exactly
one of `equals` / `not_equals` holds; and both comparisons are
case-insensitive (invariant under replacing either argument by any string
with the same lowercase image). -/
theorem string_predicate_algebra_c9 :
    (∀ (a : Option String) (b : String),
      predicate_not_contains (.strV a) (.str b) =
        (predicate_contains (.strV a) (.str b)).map (fun x => !x)) ∧
    (∀ (a : Option String) (b : String), ∃ b1 b2,
      predicate_equals (.strV a) (.str b) = .ok b1 ∧
      predicate_not_equals (.strV a) (.str b) = .ok b2 ∧
      (b1 && b2) = false ∧ (b1 || b2) = true) ∧
    (∀ (x x2 b : String), pyLower x = pyLower x2 →
      predicate_contains (.strV (some x)) (.str b) =
        predicate_contains (.strV (some x2)) (.str b) ∧
      predicate_equals (.strV (some x)) (.str b) =
        predicate_equals (.strV (some x2)) (.str b)) ∧
    (∀ (a b b2 : String), pyLower b = pyLower b2 →
      predicate_contains (.strV (some a)) (.str b) =
        predicate_contains (.strV (some a)) (.str b2) ∧
      predicate_equals (.strV (some a)) (.str b) =
        predicate_equals (.strV (some a)) (.str b2)) := by
  refine ⟨?_, ?_, ?_, ?_⟩
  · intro a b
    cases a <;> rfl
  · intro a b
    cases a with
    | none =>
      exact ⟨_, _, rfl, rfl, Bool.and_not_self _, Bool.or_not_self _⟩
    | some s =>
      exact ⟨_, _, rfl, rfl, Bool.and_not_self _, Bool.or_not_self _⟩
  · intro x x2 b h
    constructor <;>
      simp only [predicate_contains, predicate_equals, pyLowerVal, fieldTextLower,
        Bind.bind, Except.bind, pure, Except.pure, h]
  · intro a b b2 h
    constructor <;>
      simp only [predicate_contains, predicate_equals, pyLowerVal, fieldTextLower,
        Bind.bind, Except.bind, pure, Except.pure, h]

/-- Witness for C9 at concrete inputs, including the case-insensitivity parts
with their lowercase-image hypotheses discharged by computation. -/
theorem string_predicate_algebra_c9_witness :
    (predicate_not_contains (.strV (some "Hello World")) (.str "WORLD") =
      (predicate_contains (.strV (some "Hello World")) (.str "WORLD")).map (fun x => !x)) ∧
    (∃ b1 b2,
      predicate_equals (.strV (some "Foo")) (.str "foo") = .ok b1 ∧
      predicate_not_equals (.strV (some "Foo")) (.str "foo") = .ok b2 ∧
      (b1 && b2) = false ∧ (b1 || b2) = true) ∧
    (predicate_contains (.strV (some "ABC")) (.str "b") =
      predicate_contains (.strV (some "abc")) (.str "b") ∧
     predicate_equals (.strV (some "ABC")) (.str "b") =
      predicate_equals (.strV (some "abc")) (.str "b")) ∧
    (predicate_contains (.strV (some "abc")) (.str "BC") =
      predicate_contains (.strV (some "abc")) (.str "bc") ∧
     predicate_equals (.strV (some "abc")) (.str "BC") =
      predicate_equals (.strV (some "abc")) (.str "bc")) :=
  ⟨string_predicate_algebra_c9.1 (some "Hello World") "WORLD",
   string_predicate_algebra_c9.2.1 (some "Foo") "foo",
   string_predicate_algebra_c9.2.2.1 "ABC" "abc" "b" (by decide),
   string_predicate_algebra_c9.2.2.2 "abc" "BC" "bc" (by decide)⟩

/-! ## Claim C10: the aggregation policy is never validated -/

/-- Claim C10: a missing aggregation policy defaults to `All` (conjunction);
any present value whose lowercase form is exactly `all` gives conjunction;
every other value — including `any`, misspellings and arbitrary strings —
silently gives disjunction, and two such junk values produce identical runs
(no policy value is ever rejected). -/
theorem aggregation_policy_unvalidated_c10 :
    (∀ results : List Bool,
      matcherDecision (overallOf none) results = results.all (fun b => b)) ∧
    (∀ (s : String) (results : List Bool), pyLower s = "all" →
      matcherDecision (overallOf (some s)) results = results.all (fun b => b)) ∧
    (∀ (s : String) (results : List Bool), pyLower s ≠ "all" →
      matcherDecision (overallOf (some s)) results = results.any (fun b => b)) ∧
    (∀ (s s2 : String) (rules : List Rule) (actions : List String) (db : List Email)
       (w : World) (clock : Nat → Int) (fails : ApiCall → Bool) (nid : String → String)
       (tick : Nat), pyLower s ≠ "all" → pyLower s2 ≠ "all" →
      process_rules ⟨some s, rules, actions⟩ db w clock fails nid tick =
      process_rules ⟨some s2, rules, actions⟩ db w clock fails nid tick) ∧
    (∀ (rules : List Rule) (actions : List String) (db : List Email) (w : World)
       (clock : Nat → Int) (fails : ApiCall → Bool) (nid : String → String) (tick : Nat),
      process_rules ⟨none, rules, actions⟩ db w clock fails nid tick =
      process_rules ⟨some "All", rules, actions⟩ db w clock fails nid tick) := by
  refine ⟨?_, ?_, ?_, ?_, ?_⟩
  · intro results; rfl
  · intro s results h
    simp only [matcherDecision, overallOf, Option.getD, h]
    rfl
  · intro s results h
    have hb : ((pyLower s : String) == "all") = false := by
      simpa using h
    simp only [matcherDecision, overallOf, Option.getD, hb]
    rfl
  · intro s s2 rules actions db w clock fails nid tick h1 h2
    have hb1 : ((overallOf (some s) : String) == "all") = false := by
      simp only [overallOf, Option.getD]
      simpa using h1
    have hb2 : ((overallOf (some s2) : String) == "all") = false := by
      simp only [overallOf, Option.getD]
      simpa using h2
    simp only [process_rules]
    exact runLoop_overall_congr rules _ _ actions clock fails nid (hb1.trans hb2.symm) _ _
  · intro rules actions db w clock fails nid tick
    rfl

/-- Witness for C10: the misspelled policies `ANY` and `anyy` both behave as
disjunction and give identical runs on a concrete database. -/
theorem aggregation_policy_unvalidated_c10_witness :
    (matcherDecision (overallOf (some "ANY")) [false, true] = [false, true].any (fun b => b)) ∧
    process_rules ⟨some "ANY", [], ["mark_as_read"]⟩
        [⟨"e1", "t1", none, none, none, none, none, none⟩] ⟨[], [], []⟩
        (fun _ => 5) (fun _ => false) (fun _ => "L") 0 =
      process_rules ⟨some "anyy", [], ["mark_as_read"]⟩
        [⟨"e1", "t1", none, none, none, none, none, none⟩] ⟨[], [], []⟩
        (fun _ => 5) (fun _ => false) (fun _ => "L") 0 :=
  ⟨aggregation_policy_unvalidated_c10.2.2.1 "ANY" [false, true] (by decide),
   aggregation_policy_unvalidated_c10.2.2.2.1 "ANY" "anyy" [] ["mark_as_read"]
     [⟨"e1", "t1", none, none, none, none, none, none⟩] ⟨[], [], []⟩
     (fun _ => 5) (fun _ => false) (fun _ => "L") 0 (by decide) (by decide)⟩

/-! ## Claim C5: behaviour on null/absent field values -/

/-- Counterexample to C5 as stated: a date predicate applied to a record whose
timestamp is absent raises a `TypeError` — both at the predicate function and
through `evaluate_rule` on a record whose `received_at` is null — so absent
field data is an error for the date predicates. -/
theorem absent_field_c5_counterexample :
    predicate_less_than_date (.dateV none) (.int 3) "days" 1000000 =
      .error (.typeError "ordering comparison is not supported between these types") ∧
    evaluate_rule ⟨"e1", "t1", none, none, none, none, none, none⟩
        ⟨"Received", "less than", .int 3, some "days"⟩ (fun _ => 1000000) 0 =
      (.error (.typeError "ordering comparison is not supported between these types"), 1) := by
  decide

/-- Claim C5 (amended): the four string predicates treat an absent field value
exactly like the empty string and never raise; the date predicates raise a
`TypeError` whenever the record timestamp is absent. -/
theorem absent_field_handling_c5 :
    (∀ rv : String,
      predicate_contains (.strV none) (.str rv) =
        predicate_contains (.strV (some "")) (.str rv) ∧
      predicate_not_contains (.strV none) (.str rv) =
        predicate_not_contains (.strV (some "")) (.str rv) ∧
      predicate_equals (.strV none) (.str rv) =
        predicate_equals (.strV (some "")) (.str rv) ∧
      predicate_not_equals (.strV none) (.str rv) =
        predicate_not_equals (.strV (some "")) (.str rv) ∧
      (∃ b1, predicate_contains (.strV none) (.str rv) = .ok b1) ∧
      (∃ b2, predicate_not_contains (.strV none) (.str rv) = .ok b2) ∧
      (∃ b3, predicate_equals (.strV none) (.str rv) = .ok b3) ∧
      (∃ b4, predicate_not_equals (.strV none) (.str rv) = .ok b4)) ∧
    (∀ (n now : Int) (unit : String),
      predicate_less_than_date (.dateV none) (.int n) unit now =
        .error (.typeError "ordering comparison is not supported between these types") ∧
      predicate_greater_than_date (.dateV none) (.int n) unit now =
        .error (.typeError "ordering comparison is not supported between these types")) := by
  constructor
  · intro rv
    exact ⟨rfl, rfl, rfl, rfl, ⟨_, rfl⟩, ⟨_, rfl⟩, ⟨_, rfl⟩, ⟨_, rfl⟩⟩
  · intro n now unit
    exact ⟨rfl, rfl⟩

/-! ## Claim C6: the "single now per evaluation pass" property -/

/-- A record received at time 1000000, used by the C6 theorems. -/
def emailC6 : Email := ⟨"e1", "t1", none, none, none, none, some 1000000, none⟩

/-- The condition "received less than 1 day ago", used twice in one pass. -/
def ruleC6 : Rule := ⟨"Received", "less than", .int 1, some "days"⟩

/-- A wall clock that advances 200000 seconds between consecutive samples. -/
def clockC6 : Nat → Int := fun n => 1000000 + 200000 * n

/-- Counterexample to C6 as stated: two syntactically identical date
conditions evaluated in the same matcher pass return different results under
an advancing wall clock (`[true, false]`), which is impossible if both were
evaluated against one shared `now`; with a constant clock the same pass
returns `[true, true]`. -/
theorem single_now_c6_counterexample :
    evalRules emailC6 clockC6 [ruleC6, ruleC6] 0 = (.ok [true, false], 2) ∧
    evalRules emailC6 (fun _ => 1000000) [ruleC6, ruleC6] 0 = (.ok [true, true], 2) ∧
    (true : Bool) ≠ false := by
  refine ⟨by decide, by decide, by decide⟩

/-- Claim C6 (amended): `evaluate_rule` passes no `now` argument, so each date
condition samples the wall clock itself: in one pass over two date conditions
the first observes the tick-th clock sample and the second the next one, and
the predicate functions themselves accept an injected `now`. -/
theorem per_condition_now_sampling_c6 (t n1 n2 : Int) (clock : Nat → Int) (tick : Nat)
    (idv th : String) (fr ta su sn : Option String) (pr : Option Int) :
    evalRules ⟨idv, th, fr, ta, su, sn, some t, pr⟩ clock
        [⟨"Received", "less than", .int n1, none⟩,
         ⟨"Received", "less than", .int n2, none⟩] tick =
      (.ok [decide (t > clock tick - timedeltaDays n1),
            decide (t > clock (tick + 1) - timedeltaDays n2)], tick + 2) ∧
    (∀ now : Int,
      predicate_less_than_date (.dateV (some t)) (.int n1) "days" now =
        .ok (decide (t > now - timedeltaDays n1))) := by
  constructor
  · simp [evalRules, evaluate_rule, selectTarget, predKnown, predicate_less_than_date,
      pyIntOf, timedeltaDays, pyLower, containsSub, occursIn, headMatch,
      Bind.bind, Except.bind, pure, Except.pure]
  · intro now
    simp [predicate_less_than_date, pyIntOf, timedeltaDays,
      Bind.bind, Except.bind, pure, Except.pure]

/-! ## Claim C7: unknown field or predicate aborts the run -/

/-- The lowered field selectors recognized by `evaluate_rule`. -/
def recognizedFields : List String :=
  ["from", "to", "subject", "message", "snippet", "date", "received", "received_at"]

theorem toList_append_eq (a b : String) : (a ++ b).toList = a.toList ++ b.toList := by
  cases a
  cases b
  rfl

theorem headMatch_refl : ∀ l : List Char, headMatch l l = true := by
  intro l
  induction l with
  | nil => rfl
  | cons c cs ih => simp [headMatch, ih]

theorem occursIn_suffix : ∀ (pre needle : List Char), occursIn needle (pre ++ needle) = true := by
  intro pre
  induction pre with
  | nil =>
    intro needle
    cases needle with
    | nil => rfl
    | cons c cs => simp [occursIn, headMatch_refl]
  | cons p ps ih =>
    intro needle
    simp [occursIn, ih needle]

theorem containsSub_append (a b : String) : containsSub (a ++ b) b = true := by
  simp only [containsSub, toList_append_eq]
  exact occursIn_suffix a.toList b.toList

/-- Claim C7: a condition whose field selector is unrecognized, or whose
predicate kind is unrecognized, makes `evaluate_rule` raise a configuration
error (`ValueError`, the spec's `UnsupportedRuleError`) whose message contains
the offending token; and when evaluation of the first fetched record raises,
the whole run aborts with that error and the database is left untouched — no
record is processed. -/
theorem unsupported_rule_error_c7 :
    (∀ (email : Email) (rule : Rule) (clock : Nat → Int) (tick : Nat),
      pyLower rule.field ∉ recognizedFields →
      evaluate_rule email rule clock tick =
        (.error (.valueError ("Unsupported field in rule: " ++ pyLower rule.field)), tick) ∧
      containsSub ("Unsupported field in rule: " ++ pyLower rule.field)
        (pyLower rule.field) = true) ∧
    (∀ (email : Email) (rule : Rule) (clock : Nat → Int) (tick : Nat),
      pyLower rule.field ∈ recognizedFields → predKnown (pyLower rule.predicate) = false →
      evaluate_rule email rule clock tick =
        (.error (.valueError ("Unsupported predicate: " ++ pyLower rule.predicate)), tick) ∧
      containsSub ("Unsupported predicate: " ++ pyLower rule.predicate)
        (pyLower rule.predicate) = true) ∧
    (∀ (cfg : Config) (db : List Email) (w : World) (clock : Nat → Int)
       (fails : ApiCall → Bool) (nid : String → String) (tick : Nat)
       (e : Email) (rest : List Email) (err : PyErr) (t : Nat),
      fetchUnprocessed db = e :: rest →
      evalRules e clock cfg.rules tick = (.error err, t) →
      process_rules cfg db w clock fails nid tick = (⟨db, w, [], t⟩, some err)) := by
  refine ⟨?_, ?_, ?_⟩
  · intro email rule clock tick h
    simp only [recognizedFields, List.mem_cons, List.not_mem_nil, or_false, not_or] at h
    obtain ⟨h1, h2, h3, h4, h5, h6, h7, h8⟩ := h
    refine ⟨?_, containsSub_append _ _⟩
    simp [evaluate_rule, selectTarget, h1, h2, h3, h4, h5, h6, h7, h8]
  · intro email rule clock tick hf hp
    refine ⟨?_, containsSub_append _ _⟩
    simp only [recognizedFields, List.mem_cons, List.not_mem_nil, or_false] at hf
    rcases hf with h | h | h | h | h | h | h | h <;>
      simp [evaluate_rule, selectTarget, h, hp]
  · intro cfg db w clock fails nid tick e rest err t hf hev
    simp only [process_rules, hf, runLoop, hev]

/-- Witness for C7: the unknown field `bogus` and the unknown predicate
`invalid` each raise a `ValueError` naming the token, and a rule set whose
single condition uses field `bogus` aborts a run over a one-record database
with the database unchanged. -/
theorem unsupported_rule_error_c7_witness :
    (evaluate_rule ⟨"e1", "t1", none, none, none, none, none, none⟩
        ⟨"bogus", "contains", .str "x", none⟩ (fun _ => 0) 0 =
      (.error (.valueError ("Unsupported field in rule: " ++ pyLower "bogus")), 0) ∧
     containsSub ("Unsupported field in rule: " ++ pyLower "bogus") (pyLower "bogus") = true) ∧
    (evaluate_rule ⟨"e1", "t1", none, none, none, none, none, none⟩
        ⟨"From", "invalid", .str "x", none⟩ (fun _ => 0) 0 =
      (.error (.valueError ("Unsupported predicate: " ++ pyLower "invalid")), 0) ∧
     containsSub ("Unsupported predicate: " ++ pyLower "invalid") (pyLower "invalid") = true) ∧
    process_rules ⟨some "all", [⟨"bogus", "contains", .str "x", none⟩], ["mark_as_read"]⟩
        [⟨"e1", "t1", none, none, none, none, none, none⟩] ⟨[], [], []⟩
        (fun _ => 0) (fun _ => false) (fun _ => "L") 0 =
      (⟨[⟨"e1", "t1", none, none, none, none, none, none⟩], ⟨[], [], []⟩, [], 0⟩,
        some (.valueError ("Unsupported field in rule: " ++ pyLower "bogus"))) :=
  ⟨unsupported_rule_error_c7.1 ⟨"e1", "t1", none, none, none, none, none, none⟩
      ⟨"bogus", "contains", .str "x", none⟩ (fun _ => 0) 0 (by decide),
   unsupported_rule_error_c7.2.1 ⟨"e1", "t1", none, none, none, none, none, none⟩
      ⟨"From", "invalid", .str "x", none⟩ (fun _ => 0) 0 (by decide) (by decide),
   unsupported_rule_error_c7.2.2
      ⟨some "all", [⟨"bogus", "contains", .str "x", none⟩], ["mark_as_read"]⟩
      [⟨"e1", "t1", none, none, none, none, none, none⟩] ⟨[], [], []⟩
      (fun _ => 0) (fun _ => false) (fun _ => "L") 0
      ⟨"e1", "t1", none, none, none, none, none, none⟩ [] _ 0 (by decide) (by decide)⟩

/-! ## Claim C8: unrecognized action tokens are skipped with a warning -/

/-- An action token outside the recognized set: not `mark_as_read`, not
`mark_as_unread`, and not of the form `move_to:<label>`. -/
@[reducible] def unrecognizedAction (a : String) : Prop :=
  (a == "mark_as_read") = false ∧ (a == "mark_as_unread") = false ∧ startsMoveTo a = false

/-- Claim C8: an unrecognized action token is skipped with a warning — the
remaining actions still execute in order, a list of only unrecognized tokens
dispatches without error, and a matched record whose action list is entirely
unrecognized is still marked processed; an unrecognized token is never fatal. -/
theorem unrecognized_action_skipped_c8 :
    (∀ (fails : ApiCall → Bool) (nid : String → String) (msgId a : String)
       (rest : List String) (w : World) (cache : LabelCache),
      unrecognizedAction a →
      dispatchActions fails nid msgId (a :: rest) w cache =
        dispatchActions fails nid msgId rest
          { w with warns := w.warns ++ [warnMsg a] } cache) ∧
    (∀ (fails : ApiCall → Bool) (nid : String → String) (msgId : String)
       (actions : List String) (w : World) (cache : LabelCache),
      (∀ a ∈ actions, unrecognizedAction a) →
      dispatchActions fails nid msgId actions w cache =
        ({ w with warns := w.warns ++ actions.map warnMsg }, cache, none)) ∧
    (∀ (cfg : Config) (db : List Email) (w : World) (clock : Nat → Int)
       (fails : ApiCall → Bool) (nid : String → String) (tick : Nat)
       (e : Email) (results : List Bool) (t : Nat),
      fetchUnprocessed db = [e] →
      evalRules e clock cfg.rules tick = (.ok results, t) →
      matcherDecision (overallOf cfg.predicate) results = true →
      (∀ a ∈ cfg.actions, unrecognizedAction a) →
      process_rules cfg db w clock fails nid tick =
        (⟨markProcessed db e.id (clock t),
          { w with warns := w.warns ++ cfg.actions.map warnMsg }, [], t + 1⟩, none)) := by
  have skip : ∀ (fails : ApiCall → Bool) (nid : String → String) (msgId a : String)
      (rest : List String) (w : World) (cache : LabelCache),
      unrecognizedAction a →
      dispatchActions fails nid msgId (a :: rest) w cache =
        dispatchActions fails nid msgId rest
          { w with warns := w.warns ++ [warnMsg a] } cache := by
    intro fails nid msgId a rest w cache h
    obtain ⟨h1, h2, h3⟩ := h
    simp [dispatchActions, h1, h2, h3]
  have allskip : ∀ (fails : ApiCall → Bool) (nid : String → String) (msgId : String)
      (actions : List String) (w : World) (cache : LabelCache),
      (∀ a ∈ actions, unrecognizedAction a) →
      dispatchActions fails nid msgId actions w cache =
        ({ w with warns := w.warns ++ actions.map warnMsg }, cache, none) := by
    intro fails nid msgId actions
    induction actions with
    | nil =>
      intro w cache _
      simp [dispatchActions]
    | cons a rest ih =>
      intro w cache h
      rw [skip fails nid msgId a rest w cache (h a (List.mem_cons_self a rest))]
      rw [ih _ cache (fun x hx => h x (List.mem_cons_of_mem a hx))]
      simp [List.append_assoc]
  refine ⟨skip, allskip, ?_⟩
  intro cfg db w clock fails nid tick e results t hf hev hm hacts
  simp only [process_rules, hf, runLoop, hev, hm, if_true]
  rw [allskip fails nid e.id cfg.actions w [] hacts]

/-- Witness for C8: the token `delete_forever` is skipped with a warning in
front of a `mark_as_read`, an all-unrecognized list warns and succeeds, and a
matching record with only unrecognized actions is still marked processed. -/
theorem unrecognized_action_skipped_c8_witness :
    (dispatchActions (fun _ => false) (fun _ => "L") "m1"
        ["delete_forever", "mark_as_read"] ⟨[], [], []⟩ [] =
      dispatchActions (fun _ => false) (fun _ => "L") "m1" ["mark_as_read"]
        ⟨[], [], [warnMsg "delete_forever"]⟩ []) ∧
    (dispatchActions (fun _ => false) (fun _ => "L") "m1" ["delete_forever", "snooze"]
        ⟨[], [], []⟩ [] =
      (⟨[], [], ["delete_forever", "snooze"].map warnMsg⟩, [], none)) ∧
    process_rules ⟨some "all", [], ["delete_forever"]⟩
        [⟨"e1", "t1", none, none, none, none, none, none⟩] ⟨[], [], []⟩
        (fun _ => 42) (fun _ => false) (fun _ => "L") 0 =
      (⟨markProcessed [⟨"e1", "t1", none, none, none, none, none, none⟩] "e1" 42,
        ⟨[], [], ["delete_forever"].map warnMsg⟩, [], 1⟩, none) := by
  refine ⟨unrecognized_action_skipped_c8.1 (fun _ => false) (fun _ => "L") "m1"
      "delete_forever" ["mark_as_read"] ⟨[], [], []⟩ [] (by decide), ?_, ?_⟩
  · have h := unrecognized_action_skipped_c8.2.1 (fun _ => false) (fun _ => "L") "m1"
      ["delete_forever", "snooze"] ⟨[], [], []⟩ [] (by decide)
    simpa using h
  · have h := unrecognized_action_skipped_c8.2.2 ⟨some "all", [], ["delete_forever"]⟩
      [⟨"e1", "t1", none, none, none, none, none, none⟩] ⟨[], [], []⟩
      (fun _ => 42) (fun _ => false) (fun _ => "L") 0
      ⟨"e1", "t1", none, none, none, none, none, none⟩ [] 0
      (by decide) (by decide) (by decide) (by decide)
    simpa using h

/-! ## Claim C4: `move_to_label` and the label cache -/

theorem modifyCall_fst (fails : ApiCall → Bool) (w : World) (m : String)
    (a r : List String) :
    (modifyCall fails w m a r).1 = { w with calls := w.calls ++ [ApiCall.modifyMsg m a r] } := by
  simp only [modifyCall]
  split <;> rfl

theorem cacheGet_setKey_self (c : LabelCache) (k v : String) :
    cacheGet (setKey c k v) k = some v := by
  induction c with
  | nil => simp [setKey, cacheGet, List.find?]
  | cons p rest ih =>
    obtain ⟨k0, v0⟩ := p
    by_cases h : k0 = k
    · subst h
      simp [setKey, cacheGet, List.find?]
    · have hb : (k0 == k) = false := by simpa using h
      simp only [setKey, hb, Bool.false_eq_true, if_false]
      simpa [cacheGet, List.find?, hb] using ih

/-- Claim C4: `move_to_label` with a name equal to `inbox` case-insensitively
issues exactly one modify call re-adding `INBOX` (never label-list or
label-create, cache untouched); for another name it consults the cache first:
on a miss it fetches the label list once, populates the cache, creates the
label (caching the new id) only when the name is still absent, then adds the
resolved id and removes `INBOX`; a successful call leaves the name cached, and
a call for a cached name issues no label-list call. -/
theorem move_to_label_cache_c4 :
    (∀ (fails : ApiCall → Bool) (nid : String → String) (w : World) (m name : String)
       (cache : LabelCache), pyUpper name = "INBOX" →
      (move_to_label fails nid w m name cache).1.calls =
        w.calls ++ [ApiCall.modifyMsg m ["INBOX"] []] ∧
      (move_to_label fails nid w m name cache).2.1 = cache) ∧
    (∀ (fails : ApiCall → Bool) (nid : String → String) (w : World) (m name : String)
       (cache : LabelCache) (i : String), pyUpper name ≠ "INBOX" →
      (∀ c, fails c = false) →
      cacheGet cache name = none →
      cacheGet (updCache cache w.provLabels) name = some i → i ≠ "" →
      move_to_label fails nid w m name cache =
        ({ w with calls := w.calls ++ [ApiCall.labelsList, ApiCall.modifyMsg m [i] ["INBOX"]] },
         updCache cache w.provLabels, none)) ∧
    (∀ (fails : ApiCall → Bool) (nid : String → String) (w : World) (m name : String)
       (cache : LabelCache), pyUpper name ≠ "INBOX" →
      (∀ c, fails c = false) →
      cacheGet cache name = none →
      pyFalsy (cacheGet (updCache cache w.provLabels) name) = true →
      move_to_label fails nid w m name cache =
        ({ w with provLabels := w.provLabels ++ [(name, nid name)],
                  calls := w.calls ++ [ApiCall.labelsList, ApiCall.labelsCreate name,
                                       ApiCall.modifyMsg m [nid name] ["INBOX"]] },
         setKey (updCache cache w.provLabels) name (nid name), none)) ∧
    (∀ (fails : ApiCall → Bool) (nid : String → String) (w : World) (m name : String)
       (cache : LabelCache) (i : String), pyUpper name ≠ "INBOX" →
      (∀ c, fails c = false) →
      cacheGet cache name = some i → i ≠ "" →
      move_to_label fails nid w m name cache =
        ({ w with calls := w.calls ++ [ApiCall.modifyMsg m [i] ["INBOX"]] }, cache, none)) ∧
    (∀ (fails : ApiCall → Bool) (nid : String → String) (w : World) (m name : String)
       (cache : LabelCache) (w2 : World) (c2 : LabelCache), pyUpper name ≠ "INBOX" →
      move_to_label fails nid w m name cache = (w2, c2, none) →
      (cacheGet c2 name).isSome = true) ∧
    (∀ (fails : ApiCall → Bool) (nid : String → String) (w : World) (m name : String)
       (cache : LabelCache), pyUpper name ≠ "INBOX" →
      (cacheGet cache name).isSome = true →
      ∃ tail, (move_to_label fails nid w m name cache).1.calls = w.calls ++ tail ∧
        ApiCall.labelsList ∉ tail) := by
  refine ⟨?_, ?_, ?_, ?_, ?_, ?_⟩
  · intro fails nid w m name cache h
    have hb : (pyUpper name == "INBOX") = true := by simp [h]
    constructor
    · simp [move_to_label, hb, modifyCall_fst]
    · simp only [move_to_label, hb, if_true]
  · intro fails nid w m name cache i hne hok hmiss hfound hi
    have hb : (pyUpper name == "INBOX") = false := by simpa using hne
    have hfl : pyFalsy (cacheGet (updCache cache w.provLabels) name) = false := by
      simp [pyFalsy, hfound, hi]
    simp [move_to_label, hb, hmiss, hfound, hfl, pyFalsy, hi, labelsListCall, modifyCall, hok]
  · intro fails nid w m name cache hne hok hmiss hfalsy
    have hb : (pyUpper name == "INBOX") = false := by simpa using hne
    simp [move_to_label, hb, hmiss, hfalsy, labelsListCall, labelsCreateCall,
      modifyCall, hok]
  · intro fails nid w m name cache i hne hok hhit hi
    have hb : (pyUpper name == "INBOX") = false := by simpa using hne
    have hs : (cacheGet cache name).isSome = true := by simp [hhit]
    have hfl : pyFalsy (cacheGet cache name) = false := by simp [pyFalsy, hhit, hi]
    simp [move_to_label, hb, hs, hfl, hhit, pyFalsy, hi, modifyCall, hok]
  · intro fails nid w m name cache w2 c2 hne hsucc
    have hb : (pyUpper name == "INBOX") = false := by simpa using hne
    simp only [move_to_label, hb, Bool.false_eq_true, if_false] at hsucc
    by_cases hmem : (cacheGet cache name).isSome = true
    · simp only [hmem, if_true] at hsucc
      by_cases hfl : pyFalsy (cacheGet cache name) = true
      · simp only [hfl, if_true] at hsucc
        cases hcr : fails (.labelsCreate name) with
        | true => simp [labelsCreateCall, hcr] at hsucc
        | false =>
          simp only [labelsCreateCall, hcr, Bool.false_eq_true, if_false] at hsucc
          simp only [modifyCall] at hsucc
          split at hsucc
          · simp at hsucc
          · have h2 := congrArg (fun p => p.2.1) hsucc
            simp only at h2
            subst h2
            simp [cacheGet_setKey_self]
      · have hfl2 : pyFalsy (cacheGet cache name) = false := by
          simpa using hfl
        simp only [hfl2, Bool.false_eq_true, if_false] at hsucc
        simp only [modifyCall] at hsucc
        split at hsucc
        · simp at hsucc
        · have h2 := congrArg (fun p => p.2.1) hsucc
          simp only at h2
          subst h2
          cases ho : cacheGet cache name with
          | none => rw [ho] at hfl2; simp [pyFalsy] at hfl2
          | some v => simp [ho]
    · have hmem2 : (cacheGet cache name).isSome = false := by simpa using hmem
      simp only [hmem2, Bool.false_eq_true, if_false] at hsucc
      cases hll : fails .labelsList with
      | true => simp [labelsListCall, hll] at hsucc
      | false =>
        simp only [labelsListCall, hll, Bool.false_eq_true, if_false] at hsucc
        by_cases hfl : pyFalsy (cacheGet (updCache cache w.provLabels) name) = true
        · simp only [hfl, if_true] at hsucc
          cases hcr : fails (.labelsCreate name) with
          | true => simp [labelsCreateCall, hcr] at hsucc
          | false =>
            simp only [labelsCreateCall, hcr, Bool.false_eq_true, if_false] at hsucc
            simp only [modifyCall] at hsucc
            split at hsucc
            · simp at hsucc
            · have h2 := congrArg (fun p => p.2.1) hsucc
              simp only at h2
              subst h2
              simp [cacheGet_setKey_self]
        · have hfl2 : pyFalsy (cacheGet (updCache cache w.provLabels) name) = false := by
            simpa using hfl
          simp only [hfl2, Bool.false_eq_true, if_false] at hsucc
          simp only [modifyCall] at hsucc
          split at hsucc
          · simp at hsucc
          · have h2 := congrArg (fun p => p.2.1) hsucc
            simp only at h2
            subst h2
            cases ho : cacheGet (updCache cache w.provLabels) name with
            | none => rw [ho] at hfl2; simp [pyFalsy] at hfl2
            | some v => simp [ho]
  · intro fails nid w m name cache hne hmem
    have hb : (pyUpper name == "INBOX") = false := by simpa using hne
    simp only [move_to_label, hb, Bool.false_eq_true, if_false, hmem, if_true]
    by_cases hfl : pyFalsy (cacheGet cache name) = true
    · simp only [hfl, if_true]
      cases hcr : fails (.labelsCreate name) with
      | true =>
        refine ⟨[ApiCall.labelsCreate name], ?_, by simp⟩
        simp [labelsCreateCall, hcr]
      | false =>
        refine ⟨[ApiCall.labelsCreate name,
                 ApiCall.modifyMsg m [nid name] ["INBOX"]], ?_, by simp⟩
        simp [labelsCreateCall, hcr, modifyCall_fst]
    · have hfl2 : pyFalsy (cacheGet cache name) = false := by simpa using hfl
      refine ⟨[ApiCall.modifyMsg m [(cacheGet cache name).getD ""] ["INBOX"]], ?_, by simp⟩
      simp [hfl2, modifyCall_fst]

/-- Witness for C4 at concrete inputs: the built-in `inBox` name, a miss that
resolves from the provider list, a miss that creates `Fresh`, a hit on a
cached id, cache membership after a successful call, and a second call that
issues no label-list request. -/
theorem move_to_label_cache_c4_witness :
    ((move_to_label (fun _ => false) (fun n => "NEW_" ++ n) ⟨[("Important", "L2")], [], []⟩
        "m1" "inBox" [("X", "L9")]).1.calls =
      [] ++ [ApiCall.modifyMsg "m1" ["INBOX"] []] ∧
     (move_to_label (fun _ => false) (fun n => "NEW_" ++ n) ⟨[("Important", "L2")], [], []⟩
        "m1" "inBox" [("X", "L9")]).2.1 = [("X", "L9")]) ∧
    (move_to_label (fun _ => false) (fun n => "NEW_" ++ n) ⟨[("Important", "L2")], [], []⟩
        "m1" "Important" [] =
      ({ provLabels := [("Important", "L2")],
         calls := [] ++ [ApiCall.labelsList, ApiCall.modifyMsg "m1" ["L2"] ["INBOX"]],
         warns := [] }, updCache [] [("Important", "L2")], none)) ∧
    (move_to_label (fun _ => false) (fun n => "NEW_" ++ n) ⟨[("Important", "L2")], [], []⟩
        "m1" "Fresh" [] =
      ({ provLabels := [("Important", "L2")] ++ [("Fresh", "NEW_Fresh")],
         calls := [] ++ [ApiCall.labelsList, ApiCall.labelsCreate "Fresh",
                         ApiCall.modifyMsg "m1" ["NEW_Fresh"] ["INBOX"]],
         warns := [] }, setKey (updCache [] [("Important", "L2")]) "Fresh" "NEW_Fresh", none)) ∧
    (move_to_label (fun _ => false) (fun n => "NEW_" ++ n) ⟨[("Important", "L2")], [], []⟩
        "m1" "Important" [("Important", "L2")] =
      ({ provLabels := [("Important", "L2")],
         calls := [] ++ [ApiCall.modifyMsg "m1" ["L2"] ["INBOX"]],
         warns := [] }, [("Important", "L2")], none)) ∧
    (cacheGet [("Important", "L2")] "Important").isSome = true ∧
    (∃ tail,
      (move_to_label (fun _ => false) (fun n => "NEW_" ++ n) ⟨[("Important", "L2")], [], []⟩
          "m1" "Important" [("Important", "L2")]).1.calls = [] ++ tail ∧
      ApiCall.labelsList ∉ tail) := by
  refine ⟨move_to_label_cache_c4.1 (fun _ => false) (fun n => "NEW_" ++ n)
      ⟨[("Important", "L2")], [], []⟩ "m1" "inBox" [("X", "L9")] (by decide),
    move_to_label_cache_c4.2.1 (fun _ => false) (fun n => "NEW_" ++ n)
      ⟨[("Important", "L2")], [], []⟩ "m1" "Important" [] "L2" (by decide) (fun _ => rfl)
      (by decide) (by decide) (by decide),
    move_to_label_cache_c4.2.2.1 (fun _ => false) (fun n => "NEW_" ++ n)
      ⟨[("Important", "L2")], [], []⟩ "m1" "Fresh" [] (by decide) (fun _ => rfl)
      (by decide) (by decide),
    move_to_label_cache_c4.2.2.2.1 (fun _ => false) (fun n => "NEW_" ++ n)
      ⟨[("Important", "L2")], [], []⟩ "m1" "Important" [("Important", "L2")] "L2"
      (by decide) (fun _ => rfl) (by decide) (by decide),
    move_to_label_cache_c4.2.2.2.2.1 (fun _ => false) (fun n => "NEW_" ++ n)
      ⟨[("Important", "L2")], [], []⟩ "m1" "Important" []
      { provLabels := [("Important", "L2")],
        calls := [] ++ [ApiCall.labelsList, ApiCall.modifyMsg "m1" ["L2"] ["INBOX"]],
        warns := [] } (updCache [] [("Important", "L2")]) (by decide) (by decide),
    move_to_label_cache_c4.2.2.2.2.2 (fun _ => false) (fun n => "NEW_" ++ n)
      ⟨[("Important", "L2")], [], []⟩ "m1" "Important" [("Important", "L2")]
      (by decide) (by decide)⟩

/-! ## Claim C3: the processing loop and `processed_at` -/

theorem markProcessed_idsmap (db : List Email) (i : String) (t : Int) :
    (markProcessed db i t).map (fun e => e.id) = db.map (fun e => e.id) := by
  induction db with
  | nil => rfl
  | cons a rest ih =>
    simp only [markProcessed, List.map_cons] at ih ⊢
    refine congrArg₂ (· :: ·) ?_ ih
    split <;> rfl

theorem markProcessed_cons (a : Email) (rest : List Email) (i : String) (t : Int) :
    markProcessed (a :: rest) i t =
      (if a.id == i then { a with processed_at := some t } else a) :: markProcessed rest i t :=
  rfl

theorem findRec_cons (a : Email) (rest : List Email) (j : String) :
    findRec (a :: rest) j = if a.id == j then some a else findRec rest j := by
  cases h : (a.id == j) <;> simp [findRec, List.find?, h]

theorem findRec_markProcessed_ne (db : List Email) (i : String) (t : Int) (j : String)
    (h : j ≠ i) : findRec (markProcessed db i t) j = findRec db j := by
  induction db with
  | nil => rfl
  | cons a rest ih =>
    rw [markProcessed_cons, findRec_cons, findRec_cons]
    by_cases hai : (a.id == i) = true
    · have haid : a.id = i := by simpa using hai
      have haj : (a.id == j) = false := by simp [haid, Ne.symm h]
      have haj2 : (({ a with processed_at := some t } : Email).id == j) = false := haj
      simp only [hai, if_true, haj, haj2, Bool.false_eq_true, if_false]
      exact ih
    · have hai2 : (a.id == i) = false := by simpa using hai
      simp only [hai2, Bool.false_eq_true, if_false]
      by_cases haj : (a.id == j) = true
      · simp only [haj, if_true]
      · have haj2 : (a.id == j) = false := by simpa using haj
        simp only [haj2, Bool.false_eq_true, if_false]
        exact ih

theorem findRec_markProcessed_eq (db : List Email) (i : String) (t : Int) :
    findRec (markProcessed db i t) i =
      (findRec db i).map (fun e => { e with processed_at := some t }) := by
  induction db with
  | nil => rfl
  | cons a rest ih =>
    rw [markProcessed_cons, findRec_cons, findRec_cons]
    by_cases hai : (a.id == i) = true
    · have hai2 : (({ a with processed_at := some t } : Email).id == i) = true := hai
      simp only [hai, hai2, if_true]
      rfl
    · have hai2 : (a.id == i) = false := by simpa using hai
      have hai3 : (({ a with processed_at := some t } : Email).id == i) = false := hai2
      simp only [hai, hai2, hai3, Bool.false_eq_true, if_false]
      exact ih

theorem nodup_id_inj (db : List Email) (hnd : (db.map (fun e => e.id)).Nodup) :
    ∀ e ∈ db, ∀ e2 ∈ db, e.id = e2.id → e = e2 := by
  induction db with
  | nil => simp
  | cons a rest ih =>
    simp only [List.map_cons, List.nodup_cons] at hnd
    obtain ⟨hna, hnd2⟩ := hnd
    intro e he e2 he2 heq
    rcases List.mem_cons.1 he with rfl | he3 <;> rcases List.mem_cons.1 he2 with rfl | he4
    · rfl
    · exact absurd (heq ▸ List.mem_map_of_mem (fun x => x.id) he4) hna
    · exact absurd (heq ▸ List.mem_map_of_mem (fun x => x.id) he3) hna
    · exact ih hnd2 e he3 e2 he4 heq

theorem findRec_of_mem_nodup (db : List Email) (hnd : (db.map (fun e => e.id)).Nodup) :
    ∀ e ∈ db, findRec db e.id = some e := by
  induction db with
  | nil => simp
  | cons a rest ih =>
    simp only [List.map_cons, List.nodup_cons] at hnd
    obtain ⟨hna, hnd2⟩ := hnd
    intro e he
    rcases List.mem_cons.1 he with rfl | he2
    · simp [findRec, List.find?]
    · have hne : (a.id == e.id) = false := by
        have h : a.id ≠ e.id :=
          fun hcontra => hna (hcontra ▸ List.mem_map_of_mem (fun x => x.id) he2)
        simpa using h
      simpa [findRec, List.find?, hne] using ih hnd2 e he2

/-- A fetched record was handled by the loop: its conditions evaluated without
error at some tick, and it was marked processed (with the wall-clock sample
taken after its evaluation) iff the rule set matched it, else left unchanged. -/
def handled (overall : String) (rules : List Rule) (clock : Nat → Int)
    (dbF : List Email) (e : Email) : Prop :=
  ∃ tk results t, evalRules e clock rules tk = (.ok results, t) ∧
    (matcherDecision overall results = true →
      findRec dbF e.id = some { e with processed_at := some (clock t) }) ∧
    (matcherDecision overall results = false → findRec dbF e.id = some e)

/-- The reason a run aborted at a record: either evaluating its conditions
raised, or it matched and dispatching its actions raised. -/
def failCause (overall : String) (rules : List Rule) (actions : List String)
    (clock : Nat → Int) (fails : ApiCall → Bool) (nid : String → String)
    (e : Email) (err : PyErr) : Prop :=
  (∃ tk t, evalRules e clock rules tk = (.error err, t)) ∨
  (∃ tk results t w0 c0 w1 c1, evalRules e clock rules tk = (.ok results, t) ∧
    matcherDecision overall results = true ∧
    dispatchActions fails nid e.id actions w0 c0 = (w1, c1, some err))

theorem runLoop_spec (rules : List Rule) (overall : String) (actions : List String)
    (clock : Nat → Int) (fails : ApiCall → Bool) (nid : String → String) :
    ∀ (es : List Email) (st st2 : RunState) (res : Option PyErr),
      (es.map (fun e => e.id)).Nodup →
      (∀ e ∈ es, findRec st.db e.id = some e) →
      runLoop rules overall actions clock fails nid es st = (st2, res) →
      (st2.db.map (fun e => e.id) = st.db.map (fun e => e.id)) ∧
      (∀ i : String, (∀ e ∈ es, e.id ≠ i) → findRec st2.db i = findRec st.db i) ∧
      (res = none → ∀ e ∈ es, handled overall rules clock st2.db e) ∧
      (∀ err : PyErr, res = some err → ∃ done pend : List Email, es = done ++ pend ∧
        (∀ e ∈ done, handled overall rules clock st2.db e) ∧
        (∀ e ∈ pend, findRec st2.db e.id = some e) ∧
        (∃ e0 pend2, pend = e0 :: pend2 ∧
          failCause overall rules actions clock fails nid e0 err)) := by
  intro es
  induction es with
  | nil =>
    intro st st2 res hnd hani hrun
    simp only [runLoop] at hrun
    have h1 := congrArg Prod.fst hrun
    have h2 := congrArg Prod.snd hrun
    simp only at h1 h2
    subst h1
    subst h2
    refine ⟨rfl, fun i _ => rfl, fun _ e he => absurd he (List.not_mem_nil e), ?_⟩
    intro err hres
    exact Option.noConfusion hres
  | cons e rest ih =>
    intro st st2 res hnd hani hrun
    have hmem_e : e ∈ e :: rest := List.mem_cons_self e rest
    simp only [List.map_cons, List.nodup_cons] at hnd
    obtain ⟨hna, hndr⟩ := hnd
    have hne_rest : ∀ e2 ∈ rest, e2.id ≠ e.id :=
      fun e2 he2 hcontra => hna (hcontra ▸ List.mem_map_of_mem (fun x => x.id) he2)
    simp only [runLoop] at hrun
    cases hev : evalRules e clock rules st.tick with
    | mk exb t =>
      cases exb with
      | error err0 =>
        simp only [hev] at hrun
        have h1 := congrArg Prod.fst hrun
        have h2 := congrArg Prod.snd hrun
        simp only at h1 h2
        subst h1
        subst h2
        refine ⟨rfl, fun i _ => rfl, fun hcontra => Option.noConfusion hcontra, ?_⟩
        intro err hres
        have herr : err0 = err := Option.some.inj hres
        subst herr
        exact ⟨[], e :: rest, rfl, by simp, fun e2 he2 => hani e2 he2, e, rest, rfl,
          Or.inl ⟨st.tick, t, hev⟩⟩
      | ok results =>
        simp only [hev] at hrun
        cases hm : matcherDecision overall results with
        | false =>
          simp only [hm, Bool.false_eq_true, if_false] at hrun
          have hani3 : ∀ e2 ∈ rest,
              findRec ({ st with tick := t } : RunState).db e2.id = some e2 :=
            fun e2 he2 => hani e2 (List.mem_cons_of_mem e he2)
          obtain ⟨ihc1, ihc2, ihc3, ihc4⟩ := ih { st with tick := t } st2 res hndr hani3 hrun
          have hfind_e : findRec st2.db e.id = some e := by
            rw [ihc2 e.id hne_rest]
            exact hani e hmem_e
          have hhead : handled overall rules clock st2.db e := by
            refine ⟨st.tick, results, t, hev, ?_, fun _ => hfind_e⟩
            intro hmT
            rw [hm] at hmT
            exact Bool.noConfusion hmT
          refine ⟨ihc1, ?_, ?_, ?_⟩
          · intro i hi
            exact ihc2 i (fun e2 he2 => hi e2 (List.mem_cons_of_mem e he2))
          · intro hresn e2 he2
            rcases List.mem_cons.1 he2 with rfl | he3
            · exact hhead
            · exact ihc3 hresn e2 he3
          · intro err hres
            obtain ⟨done, pend, hsplit, hdone, hpend, e0, pend2, hp, hcause⟩ := ihc4 err hres
            refine ⟨e :: done, pend, by rw [List.cons_append, hsplit], ?_, hpend,
              e0, pend2, hp, hcause⟩
            intro e2 he2
            rcases List.mem_cons.1 he2 with rfl | he3
            · exact hhead
            · exact hdone e2 he3
        | true =>
          simp only [hm, if_true] at hrun
          cases hd : dispatchActions fails nid e.id actions st.w st.cache with
          | mk w2 pr =>
            obtain ⟨c2, derr⟩ := pr
            simp only [hd] at hrun
            cases derr with
            | some err0 =>
              have h1 := congrArg Prod.fst hrun
              have h2 := congrArg Prod.snd hrun
              simp only at h1 h2
              subst h1
              subst h2
              refine ⟨rfl, fun i _ => rfl, fun hcontra => Option.noConfusion hcontra, ?_⟩
              intro err hres
              have herr : err0 = err := Option.some.inj hres
              subst herr
              exact ⟨[], e :: rest, rfl, by simp, fun e2 he2 => hani e2 he2, e, rest, rfl,
                Or.inr ⟨st.tick, results, t, st.w, st.cache, w2, c2, hev, hm, hd⟩⟩
            | none =>
              have hani3 : ∀ e2 ∈ rest,
                  findRec (markProcessed st.db e.id (clock t)) e2.id = some e2 := by
                intro e2 he2
                rw [findRec_markProcessed_ne st.db e.id (clock t) e2.id (hne_rest e2 he2)]
                exact hani e2 (List.mem_cons_of_mem e he2)
              obtain ⟨ihc1, ihc2, ihc3, ihc4⟩ :=
                ih ⟨markProcessed st.db e.id (clock t), w2, c2, t + 1⟩ st2 res hndr hani3 hrun
              have hfind_e : findRec st2.db e.id =
                  some { e with processed_at := some (clock t) } := by
                rw [ihc2 e.id hne_rest]
                show findRec (markProcessed st.db e.id (clock t)) e.id = _
                rw [findRec_markProcessed_eq, hani e hmem_e]
                rfl
              have hhead : handled overall rules clock st2.db e := by
                refine ⟨st.tick, results, t, hev, fun _ => hfind_e, ?_⟩
                intro hmF
                rw [hm] at hmF
                exact Bool.noConfusion hmF
              refine ⟨?_, ?_, ?_, ?_⟩
              · rw [ihc1]
                exact markProcessed_idsmap st.db e.id (clock t)
              · intro i hi
                rw [ihc2 i (fun e2 he2 => hi e2 (List.mem_cons_of_mem e he2))]
                exact findRec_markProcessed_ne st.db e.id (clock t) i
                  (fun hcontra => hi e hmem_e hcontra.symm)
              · intro hresn e2 he2
                rcases List.mem_cons.1 he2 with rfl | he3
                · exact hhead
                · exact ihc3 hresn e2 he3
              · intro err hres
                obtain ⟨done, pend, hsplit, hdone, hpend, e0, pend2, hp, hcause⟩ :=
                  ihc4 err hres
                refine ⟨e :: done, pend, by rw [List.cons_append, hsplit], ?_, hpend,
                  e0, pend2, hp, hcause⟩
                intro e2 he2
                rcases List.mem_cons.1 he2 with rfl | he3
                · exact hhead
                · exact hdone e2 he3

/-- Claim C3: the processing loop selects only records with null
`processed_at` (already-processed records are untouched and a later run never
re-selects them); on a run with no error every selected record is marked with
a non-null timestamp iff it matched, and left unchanged otherwise; and on an
aborted run there is a cut: records before it were handled as usual, all
records from the failing one on — in particular the record whose action
dispatch raised — still have null `processed_at`. -/
theorem processing_loop_c3 (cfg : Config) (db : List Email) (w : World)
    (clock : Nat → Int) (fails : ApiCall → Bool) (nid : String → String) (tick : Nat)
    (st2 : RunState) (res : Option PyErr)
    (hnd : (db.map (fun e => e.id)).Nodup)
    (hrun : process_rules cfg db w clock fails nid tick = (st2, res)) :
    (∀ e ∈ db, e.processed_at ≠ none → findRec st2.db e.id = some e) ∧
    (∀ e ∈ st2.db, e.processed_at ≠ none → e ∉ fetchUnprocessed st2.db) ∧
    (res = none → ∀ e ∈ fetchUnprocessed db,
      handled (overallOf cfg.predicate) cfg.rules clock st2.db e) ∧
    (∀ err : PyErr, res = some err →
      ∃ done pend : List Email, fetchUnprocessed db = done ++ pend ∧
        (∀ e ∈ done, handled (overallOf cfg.predicate) cfg.rules clock st2.db e) ∧
        (∀ e ∈ pend, findRec st2.db e.id = some e ∧ e.processed_at = none) ∧
        (∃ e0 pend2, pend = e0 :: pend2 ∧
          failCause (overallOf cfg.predicate) cfg.rules cfg.actions clock fails nid e0 err)) := by
  have hndf : ((fetchUnprocessed db).map (fun e => e.id)).Nodup :=
    ((List.filter_sublist db).map (fun e => e.id)).nodup hnd
  have hani : ∀ e ∈ fetchUnprocessed db, findRec db e.id = some e :=
    fun e he => findRec_of_mem_nodup db hnd e (List.mem_of_mem_filter he)
  obtain ⟨hc1, hc2, hc3, hc4⟩ :=
    runLoop_spec cfg.rules (overallOf cfg.predicate) cfg.actions clock fails nid
      (fetchUnprocessed db) ⟨db, w, [], tick⟩ st2 res hndf hani hrun
  refine ⟨?_, ?_, hc3, ?_⟩
  · intro e he hproc
    have hno : ∀ e2 ∈ fetchUnprocessed db, e2.id ≠ e.id := by
      intro e2 he2 heq
      have he2db : e2 ∈ db := List.mem_of_mem_filter he2
      have : e2 = e := nodup_id_inj db hnd e2 he2db e he heq
      subst this
      have := List.of_mem_filter he2
      simp only [Option.isNone_iff_eq_none] at this
      exact hproc this
    rw [hc2 e.id hno]
    exact findRec_of_mem_nodup db hnd e he
  · intro e he hproc hmem
    have := List.of_mem_filter hmem
    simp only [Option.isNone_iff_eq_none] at this
    exact hproc this
  · intro err hres
    obtain ⟨done, pend, hsplit, hdone, hpend, e0, pend2, hp, hcause⟩ := hc4 err hres
    refine ⟨done, pend, hsplit, hdone, ?_, e0, pend2, hp, hcause⟩
    intro e2 he2
    have he2f : e2 ∈ fetchUnprocessed db := by
      rw [hsplit]
      exact List.mem_append_right done he2
    have hnull := List.of_mem_filter he2f
    simp only [Option.isNone_iff_eq_none] at hnull
    exact ⟨hpend e2 he2, hnull⟩

/-- A two-record database for the C3 witness: `e1` unprocessed and matching,
`e2` already processed. -/
def dbC3 : List Email :=
  [⟨"e1", "t1", some "hr@happyfox.com", none, some "Assignment", none, some 1000, none⟩,
   ⟨"e2", "t2", some "x@y", none, none, none, some 5, some 77⟩]

/-- The rule set for the C3 witness: `From contains happyfox`, `mark_as_read`. -/
def cfgC3 : Config :=
  ⟨some "all", [⟨"From", "contains", PyVal.str "happyfox", none⟩], ["mark_as_read"]⟩

/-- The final state of the C3 witness run: `e1` marked at time 9000, one
modify call issued, `e2` untouched. -/
def stC3 : RunState :=
  ⟨[⟨"e1", "t1", some "hr@happyfox.com", none, some "Assignment", none, some 1000, some 9000⟩,
    ⟨"e2", "t2", some "x@y", none, none, none, some 5, some 77⟩],
   ⟨[], [ApiCall.modifyMsg "e1" [] ["UNREAD"]], []⟩, [], 1⟩

/-- Witness for C3: the concrete run over `dbC3` ends in `stC3` with no error,
and the claim theorem applies to it. -/
theorem processing_loop_c3_witness :
    (∀ e ∈ dbC3, e.processed_at ≠ none → findRec stC3.db e.id = some e) ∧
    (∀ e ∈ stC3.db, e.processed_at ≠ none → e ∉ fetchUnprocessed stC3.db) ∧
    ((none : Option PyErr) = none → ∀ e ∈ fetchUnprocessed dbC3,
      handled (overallOf cfgC3.predicate) cfgC3.rules (fun n => 9000 + (n : Int)) stC3.db e) ∧
    (∀ err : PyErr, (none : Option PyErr) = some err →
      ∃ done pend : List Email, fetchUnprocessed dbC3 = done ++ pend ∧
        (∀ e ∈ done,
          handled (overallOf cfgC3.predicate) cfgC3.rules (fun n => 9000 + (n : Int)) stC3.db e) ∧
        (∀ e ∈ pend, findRec stC3.db e.id = some e ∧ e.processed_at = none) ∧
        (∃ e0 pend2, pend = e0 :: pend2 ∧
          failCause (overallOf cfgC3.predicate) cfgC3.rules cfgC3.actions
            (fun n => 9000 + (n : Int)) (fun _ => false) (fun _ => "L") e0 err)) :=
  processing_loop_c3 cfgC3 dbC3 ⟨[], [], []⟩ (fun n => 9000 + (n : Int))
    (fun _ => false) (fun _ => "L") 0 stC3 none (by decide) (by decide)

example : predicate_contains (.strV (some "Hello World")) (.str "world") = .ok true := by decide
example : predicate_contains (.strV none) (.str "any") = .ok false := by decide
example : predicate_not_contains (.strV none) (.str "any") = .ok true := by decide
example : predicate_equals (.strV (some "Test")) (.str "test") = .ok true := by decide
example : predicate_less_than_date (.dateV (some 900000)) (.int 2) "days" 1000000 = .ok true := by
  decide
example : predicate_less_than_date (.dateV none) (.int 2) "days" 1000000 =
    .error (.typeError "ordering comparison is not supported between these types") := by decide
example :
    evaluate_rule
      ⟨"m1", "t1", some "hr@happyfox.com", none, some "Assignment", none, some 0, none⟩
      ⟨"From", "contains", .str "happyfox.com", none⟩ (fun _ => 0) 0 = (.ok true, 0) := by decide
example :
    evaluate_rule
      ⟨"m1", "t1", none, none, none, none, some 1000000, none⟩
      ⟨"Received", "less than", .int 3, some "days"⟩ (fun _ => 1000000) 0 = (.ok true, 1) := by
  decide
